import Mathlib

/-!
Shallow embedding of `dspy/retrieve/bingsearch_rm.py` (class `BingSearch`).

The module translates a list of query strings into a flat list of passages by
calling the Bing Web Search v7 REST endpoint once per query and extracting
either the result snippets or the fetched-and-stripped result webpages.

The network and the optional `bs4` dependency are modelled by an explicit
environment `Env`: `Env.search` stands for `requests.get(endpoint, headers,
params)` followed by `response.json()` (a transport error is `.error ()`, a
body that is not JSON is `.ok .malformed`, and a parsed body either has the
top-level `"webPages"` key with its `"value"` list of entries or does not);
`Env.fetchPage` stands for `requests.get(url).text` for a secondary page
fetch; `Env.bs4Available` stands for whether `from bs4 import BeautifulSoup`
succeeds; `Env.getText` stands for `BeautifulSoup(page, "html.parser").get_text()`.

Every operation also returns the list of transport calls it makes, in order,
so that claims about which network calls happen are statable.
-/

/-- Embeds `BingResultChoice` (bingsearch_rm.py lines 14-16). -/
inductive BingResultChoice
  | SNIPPET
  | WEBPAGE
deriving DecidableEq, Repr

/-- One entry of `response_json["webPages"]["value"]`: the code reads exactly
the fields `"displayUrl"` and `"snippet"` of each entry. -/
structure ResultEntry where
  displayUrl : String
  snippet : String
deriving DecidableEq, Repr

/-- Outcome of `response.json()` on a primary search response: the body is
not JSON (`malformed`), or it parses and the top-level `"webPages"` key is
absent (`fields none`) or present with its `"value"` entry list. -/
inductive SearchJson
  | malformed
  | fields (webPages : Option (List ResultEntry))
deriving DecidableEq

/-- The exceptions the Python code can raise out of `_search`:
a `requests` exception on any fetch, a JSON decode error from
`response.json()`, an `IndexError` from `value[i]`, and the `ImportError`
for a missing `bs4`. -/
inductive SearchError
  | transportFailure
  | malformedResponse
  | indexError
  | importError
deriving DecidableEq, Repr

/-- The primary GET request built by `_search` (lines 66-75): endpoint URL,
the `Ocp-Apim-Subscription-Key` header value, and the `q`/`count`/`mkt`
query parameters. -/
structure Request where
  url : String
  key : String
  q : String
  count : Int
  mkt : String
deriving DecidableEq

/-- A transport call made by the adapter: the primary search GET, or a
secondary page GET (line 93) which carries only the page URL. -/
inductive TransportCall
  | primary (req : Request)
  | secondary (url : String)
deriving DecidableEq

/-- The runtime environment of the adapter: the network and the optional
`bs4` markup-extraction capability. -/
structure Env where
  search : Request → Except Unit SearchJson
  fetchPage : String → Except Unit String
  bs4Available : Bool
  getText : String → String

/-- Does the character list start with `p`? Auxiliary for Python's substring
test. -/
def leadsWith : List Char → List Char → Bool
  | [], _ => true
  | _ :: _, [] => false
  | p :: ps, c :: cs => decide (p = c) && leadsWith ps cs

/-- Does `pat` occur as a contiguous run inside the character list?
Auxiliary for Python's substring test. -/
def occursIn (pat : List Char) : List Char → Bool
  | [] => leadsWith pat []
  | c :: cs => leadsWith pat (c :: cs) || occursIn pat cs

/-- Python's `pat in s` substring containment on strings, as used on line 31
(`"/v7.0/search" not in self.bing_search_v7_endpoint`). -/
def strContains (s pat : String) : Bool :=
  occursIn pat.data s.data

/-- Does the string `s` end with `pat`? Used only to state the spec's
"terminates in the literal search-API path suffix". -/
def strEndsWith (s pat : String) : Bool :=
  leadsWith pat.data.reverse s.data.reverse

/-- The adapter state: the five attributes stored by `BingSearch.__init__`
(lines 29-35). `k` is an `Int` because a Python `int` is unbounded and signed. -/
structure BingSearch where
  bing_search_v7_subscription_key : String
  bing_search_v7_endpoint : String
  bing_result_choice : BingResultChoice
  search_market : String
  k : Int
deriving DecidableEq

/-- The adapter configuration built by `BingSearch.__init__` (lines 21-37):
every attribute is stored as passed, except that `"/v7.0/search"` is appended
to the endpoint when it does not occur in it as a substring (lines 31-32). -/
def BingSearch.initConfig (key endpoint : String) (choice : BingResultChoice)
    (market : String) (k : Int) : BingSearch :=
  ⟨key,
   if strContains endpoint "/v7.0/search" then endpoint
   else endpoint ++ "/v7.0/search",
   choice, market, k⟩

/-- Embeds the full call `BingSearch(...)` observable behaviour: the
constructor body contains no `raise` and no network request (it only stores
attributes, normalizes the endpoint string, and calls `super().__init__(k=k)`
which stores `k`), so it makes no transport call and always produces a
configuration. -/
def BingSearch.init (key endpoint : String) (choice : BingResultChoice)
    (market : String) (k : Int) :
    List TransportCall × Except SearchError BingSearch :=
  ([], .ok (BingSearch.initConfig key endpoint choice market k))

/-- Python's `range(k)` for an unbounded signed `k`: empty when `k ≤ 0`. -/
def pyRange (k : Int) : List Nat :=
  List.range k.toNat

/-- Embeds the comprehension `[f(value[i]) for i in indices]` over the entry
list, where an out-of-range index raises `IndexError` (lines 88-91 and
106-109 use `indices = range(k)` unconditionally). -/
def extractAt {α : Type} (entries : List ResultEntry) (f : ResultEntry → α) :
    List Nat → Except SearchError (List α)
  | [] => .ok []
  | i :: is =>
    match entries[i]? with
    | none => .error .indexError
    | some e =>
      match extractAt entries f is with
      | .error err => .error err
      | .ok xs => .ok (f e :: xs)

/-- Embeds `[requests.get(url).text for url in urls]` (line 93): each page is
fetched in order; a transport failure propagates and stops the call sequence. -/
def fetchPages (env : Env) : List String → List TransportCall × Except SearchError (List String)
  | [] => ([], .ok [])
  | url :: rest =>
    match env.fetchPage url with
    | .error _ => ([.secondary url], .error .transportFailure)
    | .ok page =>
      match fetchPages env rest with
      | (calls, .error err) => (.secondary url :: calls, .error err)
      | (calls, .ok pages) => (.secondary url :: calls, .ok (page :: pages))

/-- The primary request `_search` builds for a query (lines 66-73). -/
def BingSearch.mkRequest (self : BingSearch) (query : String) (k : Int) : Request :=
  ⟨self.bing_search_v7_endpoint, self.bing_search_v7_subscription_key, query, k,
   self.search_market⟩

/-- Embeds `BingSearch._search` (lines 65-110): issue the primary GET
(re-raising any transport failure), parse the body, return `[]` when
`"webPages"` is absent, and otherwise extract `range(k)` entries — in
`WEBPAGE` mode collect display URLs, fetch every page, then attempt the
`bs4` import and strip markup; in `SNIPPET` mode return the snippets. -/
def BingSearch.searchStep (self : BingSearch) (env : Env) (query : String) (k : Int) :
    List TransportCall × Except SearchError (List String) :=
  match env.search (self.mkRequest query k) with
  | .error _ => ([.primary (self.mkRequest query k)], .error .transportFailure)
  | .ok .malformed => ([.primary (self.mkRequest query k)], .error .malformedResponse)
  | .ok (.fields none) => ([.primary (self.mkRequest query k)], .ok [])
  | .ok (.fields (some entries)) =>
    match self.bing_result_choice with
    | .WEBPAGE =>
      match extractAt entries (fun e => e.displayUrl) (pyRange k) with
      | .error err => ([.primary (self.mkRequest query k)], .error err)
      | .ok urls =>
        match fetchPages env urls with
        | (calls, .error err) => (.primary (self.mkRequest query k) :: calls, .error err)
        | (calls, .ok pages) =>
          if env.bs4Available then
            (.primary (self.mkRequest query k) :: calls, .ok (pages.map env.getText))
          else
            (.primary (self.mkRequest query k) :: calls, .error .importError)
    | .SNIPPET =>
      match extractAt entries (fun e => e.snippet) (pyRange k) with
      | .error err => ([.primary (self.mkRequest query k)], .error err)
      | .ok snippets => ([.primary (self.mkRequest query k)], .ok snippets)

/-- Embeds `dotdict({"long_text": passage})` as used on line 58. -/
structure dotdict where
  long_text : String
deriving DecidableEq

/-- Embeds `dspy.Prediction(passages=passages)` (lines 60-62). -/
structure Prediction where
  passages : List dotdict
deriving DecidableEq

/-- The argument `query_or_queries : Union[str, list[str]]` of `forward`. -/
inductive QueryInput
  | str (s : String)
  | list (qs : List String)

/-- Embeds the query loop of `forward` (lines 55-58): each query is searched
in order; an exception from `_search` aborts the loop; otherwise the query's
results are wrapped as passages and appended to the accumulator. -/
def forwardLoop (self : BingSearch) (env : Env) (k : Int) :
    List String → List TransportCall × Except SearchError (List dotdict)
  | [] => ([], .ok [])
  | q :: rest =>
    match self.searchStep env q k with
    | (calls, .error err) => (calls, .error err)
    | (calls, .ok results) =>
      match forwardLoop self env k rest with
      | (calls2, .error err) => (calls ++ calls2, .error err)
      | (calls2, .ok passages) =>
        (calls ++ calls2, .ok (results.map (fun p => ⟨p⟩) ++ passages))

/-- Embeds `BingSearch.forward` (lines 40-62): resolve the effective `k`
(the per-call override when given, else the stored default), wrap a bare
string into a one-element list, drop falsy (empty) query strings, run the
query loop, and wrap the accumulated passages in a `Prediction`. -/
def BingSearch.forward (self : BingSearch) (env : Env)
    (query_or_queries : QueryInput) (k : Option Int) :
    List TransportCall × Except SearchError Prediction :=
  match forwardLoop self env (match k with | some n => n | none => self.k)
      ((match query_or_queries with
        | .str s => [s]
        | .list qs => qs).filter (fun q => q ≠ "")) with
  | (calls, .error err) => (calls, .error err)
  | (calls, .ok passages) => (calls, .ok ⟨passages⟩)

/-- A `forward` call together with the adapter state after the call: the body
of `forward` rebinds `k` locally and performs no attribute assignment, so the
post-call state is the pre-call state. -/
def BingSearch.forwardCall (self : BingSearch) (env : Env)
    (input : QueryInput) (k : Option Int) :
    (List TransportCall × Except SearchError Prediction) × BingSearch :=
  (self.forward env input k, self)

/-! Concrete fixtures used by counterexamples and witnesses. -/

/-- A concrete result entry. -/
def entryA : ResultEntry := ⟨"https://a.example", "snippet A"⟩

/-- Another concrete result entry. -/
def entryB : ResultEntry := ⟨"https://b.example", "snippet B"⟩

/-- A provider that always answers with a single result entry. -/
def envOne : Env := ⟨fun _ => .ok (.fields (some [entryA])), fun _ => .ok "page", true, id⟩

/-- A provider that always answers with two result entries. -/
def envTwo : Env :=
  ⟨fun _ => .ok (.fields (some [entryA, entryB])), fun _ => .ok "page", true, id⟩

/-- A provider whose transport always fails. -/
def envDown : Env := ⟨fun _ => .error (), fun _ => .error (), true, id⟩

/-- A provider that answers with two entries but in an environment where the
`bs4` import fails. -/
def envNoBs4 : Env :=
  ⟨fun _ => .ok (.fields (some [entryA, entryB])), fun _ => .ok "page", false, id⟩

/-- A provider whose responses lack the `"webPages"` key. -/
def envNoResults : Env := ⟨fun _ => .ok (.fields none), fun _ => .ok "page", true, id⟩

/-- A concrete snippet-mode adapter with default count 3. -/
def cfgSnip : BingSearch :=
  BingSearch.initConfig "key" "https://api.bing.microsoft.com" .SNIPPET "en-us" 3

/-- A concrete webpage-mode adapter with default count 3. -/
def cfgWeb : BingSearch :=
  BingSearch.initConfig "key" "https://api.bing.microsoft.com" .WEBPAGE "en-us" 3

/-! Helper lemmas about the embedded operations. -/

/-- The only exception an extraction comprehension raises is `IndexError`. -/
theorem extractAt_error {α : Type} (entries : List ResultEntry) (f : ResultEntry → α) :
    ∀ (is : List Nat) (e : SearchError),
      extractAt entries f is = .error e → e = .indexError
  | [], e, h => by simp [extractAt] at h
  | i :: is, e, h => by
    unfold extractAt at h
    cases hi : entries[i]? with
    | none => rw [hi] at h; injection h with h; exact h.symm
    | some x =>
      rw [hi] at h
      cases hr : extractAt entries f is with
      | error e2 =>
        rw [hr] at h
        injection h with h
        subst h
        exact extractAt_error entries f is _ hr
      | ok xs => rw [hr] at h; exact absurd h (by simp)

/-- Extraction over `range n` succeeds and selects the first `n` entries when
at least `n` entries are present. -/
theorem extractAt_range' {α : Type} (entries : List ResultEntry) (f : ResultEntry → α) :
    ∀ (n s : Nat), s + n ≤ entries.length →
      extractAt entries f (List.range' s n) = .ok (((entries.drop s).take n).map f)
  | 0, s, _ => by simp [extractAt, List.range']
  | n + 1, s, h => by
    have hs : s < entries.length := by omega
    rw [List.range'_succ]
    unfold extractAt
    rw [List.getElem?_eq_getElem hs,
      extractAt_range' entries f n (s + 1) (by omega),
      List.drop_eq_getElem_cons hs, List.take_succ_cons, List.map_cons]

/-- Extraction over `range n` succeeds when at least `n` entries are present. -/
theorem extractAt_range {α : Type} (entries : List ResultEntry) (f : ResultEntry → α)
    (n : Nat) (h : n ≤ entries.length) :
    extractAt entries f (List.range n) = .ok ((entries.take n).map f) := by
  rw [List.range_eq_range', extractAt_range' entries f n 0 (by omega), List.drop_zero]

/-- The only exception the secondary page fetch loop raises is a transport
failure. -/
theorem fetchPages_error (env : Env) :
    ∀ (urls : List String) (e : SearchError),
      (fetchPages env urls).2 = .error e → e = .transportFailure
  | [], e, h => by simp [fetchPages] at h
  | url :: rest, e, h => by
    unfold fetchPages at h
    cases hf : env.fetchPage url with
    | error u => rw [hf] at h; injection h with h; exact h.symm
    | ok page =>
      rw [hf] at h
      cases hr : fetchPages env rest with
      | mk calls res =>
        rw [hr] at h
        cases res with
        | error e2 =>
          simp only at h
          injection h with h
          subst h
          exact fetchPages_error env rest _ (by rw [hr])
        | ok pages => simp only at h; exact absurd h (by simp)

/-- A transport failure on the primary fetch makes `_search` re-raise it
after the single primary call. -/
theorem searchStep_transport (self : BingSearch) (env : Env) (q : String) (k : Int)
    (h : env.search (self.mkRequest q k) = .error ()) :
    self.searchStep env q k =
      ([.primary (self.mkRequest q k)], .error .transportFailure) := by
  simp only [BingSearch.searchStep, h]

/-- A parsed response without the `"webPages"` key yields the empty result
list after the single primary call. -/
theorem searchStep_noResults (self : BingSearch) (env : Env) (q : String) (k : Int)
    (h : env.search (self.mkRequest q k) = .ok (.fields none)) :
    self.searchStep env q k = ([.primary (self.mkRequest q k)], .ok []) := by
  simp only [BingSearch.searchStep, h]

/-- In snippet mode, a response with at least `k` entries yields the first
`k` snippets unmodified, in API order. -/
theorem searchStep_snippet (self : BingSearch) (env : Env) (q : String) (k : Int)
    (entries : List ResultEntry)
    (hmode : self.bing_result_choice = .SNIPPET)
    (h : env.search (self.mkRequest q k) = .ok (.fields (some entries)))
    (hlen : k.toNat ≤ entries.length) :
    self.searchStep env q k =
      ([.primary (self.mkRequest q k)],
       .ok ((entries.take k.toNat).map (fun e => e.snippet))) := by
  simp only [BingSearch.searchStep, h, hmode, pyRange,
    extractAt_range entries _ k.toNat hlen]

/-- Raising the missing-`bs4` `ImportError` requires webpage mode and an
unavailable `bs4`: every other `_search` path raises a different exception
or none. -/
theorem searchStep_importError (self : BingSearch) (env : Env) (q : String) (k : Int)
    (h : (self.searchStep env q k).2 = .error .importError) :
    self.bing_result_choice = .WEBPAGE ∧ env.bs4Available = false := by
  unfold BingSearch.searchStep at h
  split at h
  · simp at h
  · simp at h
  · simp at h
  · rename_i entries heq
    split at h
    · rename_i hmode
      split at h
      · rename_i e hex
        simp only at h
        injection h with h
        have := extractAt_error _ _ _ _ hex
        rw [this] at h
        exact absurd h (by decide)
      · rename_i urls hurls
        split at h
        · rename_i calls e hfetch
          simp only at h
          injection h with h
          have := fetchPages_error env urls e (by rw [hfetch])
          rw [this] at h
          exact absurd h (by decide)
        · rename_i calls pages hfetch
          by_cases hbs4 : env.bs4Available
          · rw [if_pos hbs4] at h
            simp at h
          · rw [if_neg hbs4] at h
            exact ⟨hmode, by simpa using hbs4⟩
    · rename_i hmode
      split at h
      · rename_i e hex
        simp only at h
        injection h with h
        have := extractAt_error _ _ _ _ hex
        rw [this] at h
        exact absurd h (by decide)
      · simp at h

/-- An exception from a query's `_search` aborts the loop at that query:
no later query is searched and no passages are produced. -/
theorem forwardLoop_cons_error (self : BingSearch) (env : Env) (k : Int)
    (q : String) (rest : List String) (calls : List TransportCall) (e : SearchError)
    (h : self.searchStep env q k = (calls, .error e)) :
    forwardLoop self env k (q :: rest) = (calls, .error e) := by
  unfold forwardLoop
  rw [h]

/-- A query whose `_search` returns the empty result list contributes its
transport calls and no passages; the loop continues with the remaining
queries. -/
theorem forwardLoop_cons_okNil (self : BingSearch) (env : Env) (k : Int)
    (q : String) (rest : List String) (calls : List TransportCall)
    (h : self.searchStep env q k = (calls, .ok [])) :
    forwardLoop self env k (q :: rest) =
      (calls ++ (forwardLoop self env k rest).1, (forwardLoop self env k rest).2) := by
  conv_lhs => rw [forwardLoop]
  rw [h]
  cases hr : forwardLoop self env k rest with
  | mk calls2 res => cases res <;> simp

/-- A query whose `_search` succeeds contributes its passages, in API order,
before those of the remaining queries. -/
theorem forwardLoop_cons_ok (self : BingSearch) (env : Env) (k : Int)
    (q : String) (rest : List String) (calls calls2 : List TransportCall)
    (results : List String) (ps : List dotdict)
    (h : self.searchStep env q k = (calls, .ok results))
    (h2 : forwardLoop self env k rest = (calls2, .ok ps)) :
    forwardLoop self env k (q :: rest) =
      (calls ++ calls2, .ok (results.map (fun p => ⟨p⟩) ++ ps)) := by
  unfold forwardLoop
  rw [h, h2]

/-- Every exception surfaced by the query loop comes from some query's
`_search` with the same exception value. -/
theorem forwardLoop_error (self : BingSearch) (env : Env) (k : Int) :
    ∀ (qs : List String) (e : SearchError),
      (forwardLoop self env k qs).2 = .error e →
      ∃ q ∈ qs, (self.searchStep env q k).2 = .error e
  | [], e, h => by simp [forwardLoop] at h
  | q :: rest, e, h => by
    unfold forwardLoop at h
    cases hs : self.searchStep env q k with
    | mk calls res =>
      rw [hs] at h
      cases res with
      | error e2 =>
        simp only at h
        injection h with h
        exact ⟨q, by simp, by rw [hs, h]⟩
      | ok results =>
        cases hr : forwardLoop self env k rest with
        | mk calls2 res2 =>
          rw [hr] at h
          cases res2 with
          | error e2 =>
            simp only at h
            injection h with h
            subst h
            obtain ⟨q2, hq2, hq2e⟩ := forwardLoop_error self env k rest _ (by rw [hr])
            exact ⟨q2, by simp [hq2], hq2e⟩
          | ok ps => simp only at h; exact absurd h (by simp)

/-- Unfolding of `forward` on a list input with an explicit override. -/
theorem forward_list_some (self : BingSearch) (env : Env) (qs : List String) (k : Int) :
    self.forward env (.list qs) (some k) =
      ((forwardLoop self env k (qs.filter (fun q => q ≠ ""))).1,
       (forwardLoop self env k (qs.filter (fun q => q ≠ ""))).2.map (fun ps => ⟨ps⟩)) := by
  unfold BingSearch.forward
  cases hr : forwardLoop self env k (qs.filter (fun q => q ≠ "")) with
  | mk calls res => cases res <;> simp [Except.map]

/-- Unfolding of `forward` on a list input without an override. -/
theorem forward_list_none (self : BingSearch) (env : Env) (qs : List String) :
    self.forward env (.list qs) none =
      ((forwardLoop self env self.k (qs.filter (fun q => q ≠ ""))).1,
       (forwardLoop self env self.k (qs.filter (fun q => q ≠ ""))).2.map (fun ps => ⟨ps⟩)) := by
  unfold BingSearch.forward
  cases hr : forwardLoop self env self.k (qs.filter (fun q => q ≠ "")) with
  | mk calls res => cases res <;> simp [Except.map]

/-- A bare string input behaves exactly like its one-element list. -/
theorem forward_str (self : BingSearch) (env : Env) (s : String) (k : Option Int) :
    self.forward env (.str s) k = self.forward env (.list [s]) k := rfl

/-- A character list starts with itself, whatever follows. -/
theorem leadsWith_append_self : ∀ (l ys : List Char), leadsWith l (l ++ ys) = true
  | [], _ => rfl
  | c :: cs, ys => by simp [leadsWith, leadsWith_append_self cs ys]

/-- A pattern occurs in any character list that ends with it. -/
theorem occursIn_append_self (pat : List Char) :
    ∀ (xs : List Char), occursIn pat (xs ++ pat) = true
  | [] => by
    cases pat with
    | nil => rfl
    | cons p ps =>
      show occursIn (p :: ps) (p :: ps) = true
      unfold occursIn
      have h := leadsWith_append_self (p :: ps) []
      rw [List.append_nil] at h
      simp [h]
  | x :: xs => by
    unfold occursIn
    simp [occursIn_append_self pat xs]

/-- Appending the suffix makes a string contain it. -/
theorem strContains_append (s pat : String) : strContains (s ++ pat) pat = true := by
  unfold strContains
  rw [String.data_append]
  exact occursIn_append_self pat.data s.data

/-- Appending the suffix makes a string end with it. -/
theorem strEndsWith_append (s pat : String) : strEndsWith (s ++ pat) pat = true := by
  unfold strEndsWith
  rw [String.data_append, List.reverse_append]
  exact leadsWith_append_self pat.data.reverse s.data.reverse

/-- Unfolding of `forward` on a list input with an arbitrary override. -/
theorem forward_list (self : BingSearch) (env : Env) (qs : List String)
    (k? : Option Int) :
    self.forward env (.list qs) k? =
      ((forwardLoop self env (k?.getD self.k) (qs.filter (fun q => q ≠ ""))).1,
       (forwardLoop self env (k?.getD self.k) (qs.filter (fun q => q ≠ ""))).2.map
         (fun ps => ⟨ps⟩)) := by
  unfold BingSearch.forward
  have hk : (match k? with | some n => n | none => self.k) = k?.getD self.k := by
    cases k? <;> rfl
  rw [hk]
  cases hr : forwardLoop self env (k?.getD self.k) (qs.filter (fun q => q ≠ "")) with
  | mk calls res => cases res <;> simp [Except.map]

/-- In webpage mode with an unavailable `bs4`, once the entries are indexed
and every page fetched, `_search` raises the missing-dependency error. -/
theorem searchStep_webpage_noBs4 (self : BingSearch) (env : Env) (q : String) (k : Int)
    (entries : List ResultEntry) (urls : List String) (calls : List TransportCall)
    (pages : List String)
    (hmode : self.bing_result_choice = .WEBPAGE)
    (h : env.search (self.mkRequest q k) = .ok (.fields (some entries)))
    (hurls : extractAt entries (fun e => e.displayUrl) (pyRange k) = .ok urls)
    (hfetch : fetchPages env urls = (calls, .ok pages))
    (hbs4 : env.bs4Available = false) :
    self.searchStep env q k =
      (.primary (self.mkRequest q k) :: calls, .error .importError) := by
  simp [BingSearch.searchStep, h, hmode, hurls, hfetch, hbs4]

/-- In webpage mode with `bs4` available, once the entries are indexed and
every page fetched, `_search` returns the stripped page texts. -/
theorem searchStep_webpage (self : BingSearch) (env : Env) (q : String) (k : Int)
    (entries : List ResultEntry) (urls : List String) (calls : List TransportCall)
    (pages : List String)
    (hmode : self.bing_result_choice = .WEBPAGE)
    (h : env.search (self.mkRequest q k) = .ok (.fields (some entries)))
    (hurls : extractAt entries (fun e => e.displayUrl) (pyRange k) = .ok urls)
    (hfetch : fetchPages env urls = (calls, .ok pages))
    (hbs4 : env.bs4Available = true) :
    self.searchStep env q k =
      (.primary (self.mkRequest q k) :: calls, .ok (pages.map env.getText)) := by
  simp [BingSearch.searchStep, h, hmode, hurls, hfetch, hbs4]

/-- The query loop in snippet mode, when every query's response holds at
least `k` entries: one primary call per query, and the first `k` snippets of
each query concatenated in query order. -/
theorem forwardLoop_snippet (self : BingSearch) (env : Env) (k : Int)
    (entriesOf : String → List ResultEntry)
    (hmode : self.bing_result_choice = .SNIPPET) :
    ∀ (queries : List String),
      (∀ q ∈ queries,
        env.search (self.mkRequest q k) = .ok (.fields (some (entriesOf q)))) →
      (∀ q ∈ queries, k.toNat ≤ (entriesOf q).length) →
      forwardLoop self env k queries =
        (queries.map (fun q => .primary (self.mkRequest q k)),
         .ok (queries.flatMap
           (fun q => ((entriesOf q).take k.toNat).map (fun e => ⟨e.snippet⟩))))
  | [], _, _ => by simp [forwardLoop]
  | q :: rest, hresp, hlen => by
    have hq := searchStep_snippet self env q k (entriesOf q) hmode
      (hresp q (by simp)) (hlen q (by simp))
    have hrest := forwardLoop_snippet self env k entriesOf hmode rest
      (fun r hr => hresp r (by simp [hr])) (fun r hr => hlen r (by simp [hr]))
    rw [forwardLoop_cons_ok self env k q rest _ _ _ _ hq hrest]
    simp [List.map_map, Function.comp_def]

/-- A first query searched without exception and without results leaves the
rest of the call unchanged apart from its primary transport call. -/
theorem forward_cons_okNil (self : BingSearch) (env : Env) (k : Int)
    (q : String) (rest : List String)
    (h : self.searchStep env q k = ([.primary (self.mkRequest q k)], .ok []))
    (hq : q ≠ "") :
    self.forward env (.list (q :: rest)) (some k) =
      (.primary (self.mkRequest q k) :: (self.forward env (.list rest) (some k)).1,
       (self.forward env (.list rest) (some k)).2) := by
  rw [forward_list self env (q :: rest) (some k), forward_list self env rest (some k)]
  simp only [Option.getD_some]
  rw [List.filter_cons_of_pos (by simpa using hq)]
  rw [forwardLoop_cons_okNil self env k q _ _ h]
  cases hr : forwardLoop self env k (rest.filter (fun r => r ≠ "")) with
  | mk calls res => cases res <;> simp [Except.map]

/-- Every exception surfaced by `forward` comes from some query's `_search`
with the same exception value. -/
theorem forward_error (self : BingSearch) (env : Env) (input : QueryInput)
    (k? : Option Int) (e : SearchError)
    (h : (self.forward env input k?).2 = .error e) :
    ∃ q, (self.searchStep env q (k?.getD self.k)).2 = .error e := by
  have hqs : ∃ qs, self.forward env input k? = self.forward env (.list qs) k? := by
    cases input with
    | str s => exact ⟨[s], forward_str self env s k?⟩
    | list qs => exact ⟨qs, rfl⟩
  obtain ⟨qs, hqs⟩ := hqs
  rw [hqs, forward_list self env qs k?] at h
  cases hr : forwardLoop self env (k?.getD self.k) (qs.filter (fun q => q ≠ "")) with
  | mk calls res =>
    rw [hr] at h
    cases res with
    | error e2 =>
      simp only [Except.map] at h
      injection h with h
      subst h
      obtain ⟨q, _, hqe⟩ :=
        forwardLoop_error self env (k?.getD self.k) _ _ (by rw [hr])
      exact ⟨q, hqe⟩
    | ok ps => simp [Except.map] at h

/-- `_search` never reads the stored default count: only the endpoint,
credential, market and result mode. -/
theorem searchStep_k_irrel (a b : String) (c : BingResultChoice) (d : String)
    (k1 k2 : Int) (env : Env) (q : String) (k : Int) :
    BingSearch.searchStep ⟨a, b, c, d, k1⟩ env q k =
      BingSearch.searchStep ⟨a, b, c, d, k2⟩ env q k := rfl

/-- The query loop never reads the stored default count either. -/
theorem forwardLoop_k_irrel (a b : String) (c : BingResultChoice) (d : String)
    (k1 k2 : Int) (env : Env) (k : Int) :
    ∀ (qs : List String),
      forwardLoop ⟨a, b, c, d, k1⟩ env k qs = forwardLoop ⟨a, b, c, d, k2⟩ env k qs
  | [] => rfl
  | q :: rest => by
    unfold forwardLoop
    rw [searchStep_k_irrel a b c d k1 k2 env q k,
      forwardLoop_k_irrel a b c d k1 k2 env k rest]

/-! Claim theorems. -/

/-- C1 fails on the code: with `k = 3` and a provider response whose
`"webPages"` key holds a single entry, the adapter raises `IndexError`
instead of returning the one available passage, in snippet mode and in
webpage mode alike — lines 88-91 and 106-109 index `value[i]` for every
`i in range(k)` unconditionally. -/
theorem claim_C1_short_results_indexError :
    (cfgSnip.searchStep envOne "query" 3).2 = .error .indexError ∧
    (cfgWeb.searchStep envOne "query" 3).2 = .error .indexError ∧
    (cfgSnip.forward envOne (.str "query") (some 3)).2 = .error .indexError := by
  exact ⟨rfl, rfl, rfl⟩

/-- C3 is refuted at this input: constructing with an endpoint that contains
`"/v7.0/search"` only as an interior substring stores it unchanged (line 31
tests substring containment, not a suffix), so the stored endpoint does not
terminate in the search-API path suffix. -/
theorem claim_C3_counterexample :
    strEndsWith
      (BingSearch.initConfig "key" "https://x.example/v7.0/search/web" .SNIPPET
        "en-us" 3).bing_search_v7_endpoint "/v7.0/search" = false := by
  rfl

/-- C3 (amended): the stored endpoint always contains the literal
`"/v7.0/search"`. When the supplied endpoint lacks it as a substring, the
constructor appends it exactly once, so the stored endpoint is the supplied
endpoint followed by the suffix and terminates in it; when the supplied
endpoint already contains it anywhere, it is stored verbatim (no
duplication), which need not leave the suffix terminal. -/
theorem claim_C3_endpoint_normalization (key endpoint : String)
    (choice : BingResultChoice) (market : String) (k : Int) :
    strContains
      (BingSearch.initConfig key endpoint choice market k).bing_search_v7_endpoint
      "/v7.0/search" = true ∧
    (strContains endpoint "/v7.0/search" = false →
      (BingSearch.initConfig key endpoint choice market k).bing_search_v7_endpoint
          = endpoint ++ "/v7.0/search" ∧
      strEndsWith
        (BingSearch.initConfig key endpoint choice market k).bing_search_v7_endpoint
        "/v7.0/search" = true) ∧
    (strContains endpoint "/v7.0/search" = true →
      (BingSearch.initConfig key endpoint choice market k).bing_search_v7_endpoint
          = endpoint) := by
  unfold BingSearch.initConfig
  cases hc : strContains endpoint "/v7.0/search" with
  | false =>
    rw [if_neg (by simp)]
    exact ⟨strContains_append endpoint "/v7.0/search",
      fun _ => ⟨rfl, strEndsWith_append endpoint "/v7.0/search"⟩,
      fun h => absurd h (by decide)⟩
  | true =>
    rw [if_pos rfl]
    exact ⟨hc, fun h => absurd h (by decide), fun _ => rfl⟩

/-- Witness for the amended C3 at a concrete endpoint lacking the suffix. -/
theorem claim_C3_endpoint_normalization_witness :
    (BingSearch.initConfig "key" "https://api.bing.microsoft.com" .SNIPPET "en-us"
        3).bing_search_v7_endpoint = "https://api.bing.microsoft.com" ++ "/v7.0/search" ∧
    strEndsWith
      (BingSearch.initConfig "key" "https://api.bing.microsoft.com" .SNIPPET "en-us"
        3).bing_search_v7_endpoint "/v7.0/search" = true :=
  (claim_C3_endpoint_normalization "key" "https://api.bing.microsoft.com" .SNIPPET
    "en-us" 3).2.1 (by rfl)

/-- C8: the per-call override is used in place of the stored default for
that call only and mutates nothing: the adapter state after any call is the
pre-call state; a call with override `n` behaves exactly as an adapter whose
only difference is a stored default of `n` would behave without an override;
and a call without an override behaves exactly as one overriding with the
stored default. -/
theorem claim_C8_override_transient (self : BingSearch) (env : Env)
    (input : QueryInput) (n : Int) :
    (self.forwardCall env input (some n)).2 = self ∧
    (self.forwardCall env input none).2 = self ∧
    self.forward env input (some n) =
      (BingSearch.mk self.bing_search_v7_subscription_key
        self.bing_search_v7_endpoint self.bing_result_choice
        self.search_market n).forward env input none ∧
    self.forward env input none = self.forward env input (some self.k) := by
  obtain ⟨a, b, c, d, k0⟩ := self
  refine ⟨rfl, rfl, ?_, rfl⟩
  unfold BingSearch.forward
  rw [forwardLoop_k_irrel a b c d k0 n env n]

/-- C9: the missing-`bs4` `ImportError` is never raised by a snippet-mode
call, never raised when `bs4` is available, never raised at construction,
and is raised by `_search` exactly at the point of first use: in webpage
mode with `bs4` unavailable, once a response's entries have been indexed and
every page fetched. -/
theorem claim_C9_importError_characterization (self : BingSearch) (env : Env)
    (input : QueryInput) (k? : Option Int) (key endpoint : String)
    (choice : BingResultChoice) (market : String) (k0 : Int) (q : String)
    (kk : Int) (entries : List ResultEntry) (urls : List String)
    (calls : List TransportCall) (pages : List String) :
    (self.bing_result_choice = .SNIPPET →
      (self.forward env input k?).2 ≠ .error .importError) ∧
    (env.bs4Available = true →
      (self.forward env input k?).2 ≠ .error .importError) ∧
    (BingSearch.init key endpoint choice market k0).2 ≠ .error .importError ∧
    (self.bing_result_choice = .WEBPAGE → env.bs4Available = false →
      env.search (self.mkRequest q kk) = .ok (.fields (some entries)) →
      extractAt entries (fun e => e.displayUrl) (pyRange kk) = .ok urls →
      fetchPages env urls = (calls, .ok pages) →
      (self.searchStep env q kk).2 = .error .importError) := by
  refine ⟨?_, ?_, by simp [BingSearch.init], ?_⟩
  · intro hmode hcontra
    obtain ⟨q2, hq2⟩ := forward_error self env input k? .importError hcontra
    have hW := (searchStep_importError self env q2 (k?.getD self.k) hq2).1
    rw [hmode] at hW
    exact absurd hW (by decide)
  · intro hbs4 hcontra
    obtain ⟨q2, hq2⟩ := forward_error self env input k? .importError hcontra
    have hB := (searchStep_importError self env q2 (k?.getD self.k) hq2).2
    rw [hbs4] at hB
    exact absurd hB (by decide)
  · intro hmode hbs4 hsearch hurls hfetch
    rw [searchStep_webpage_noBs4 self env q kk entries urls calls pages
      hmode hsearch hurls hfetch hbs4]

/-- Witness for C9: a webpage-mode adapter in an environment without `bs4`
raises the missing-dependency error once it reaches the extraction point
(here with `k = 0`, so no page fetches are even needed), and a snippet-mode
call in the same environment never does. -/
theorem claim_C9_importError_characterization_witness :
    (cfgWeb.searchStep envNoBs4 "q" 0).2 = .error .importError ∧
    (cfgSnip.forward envNoBs4 (.str "q") (some 3)).2 ≠ .error .importError := by
  have h := claim_C9_importError_characterization cfgSnip envNoBs4 (.str "q")
    (some 3) "key" "ep" .SNIPPET "en-us" 3 "q" 0 [entryA, entryB] [] [] []
  have h2 := claim_C9_importError_characterization cfgWeb envNoBs4 (.str "q")
    (some 3) "key" "ep" .SNIPPET "en-us" 3 "q" 0 [entryA, entryB] [] [] []
  exact ⟨h2.2.2.2 rfl rfl rfl rfl rfl, h.1 rfl⟩

/-- C10: with an effective count `k ≤ 0`, a query whose response has the
`"webPages"` key contributes exactly zero passages and raises no indexing
error — in snippet mode, and in webpage mode whenever `bs4` is available —
while the primary search request is still issued; the call then proceeds
exactly as the remaining queries alone would, with that primary call
prepended to the transport log. -/
theorem claim_C10_nonpositive_k (self : BingSearch) (env : Env) (q : String)
    (rest : List String) (k : Int) (entries : List ResultEntry)
    (hk : k ≤ 0)
    (hresp : env.search (self.mkRequest q k) = .ok (.fields (some entries)))
    (hmode : self.bing_result_choice = .SNIPPET ∨ env.bs4Available = true) :
    self.searchStep env q k = ([.primary (self.mkRequest q k)], .ok []) ∧
    (q ≠ "" → self.forward env (.list (q :: rest)) (some k) =
      (.primary (self.mkRequest q k) ::
        (self.forward env (.list rest) (some k)).1,
       (self.forward env (.list rest) (some k)).2)) := by
  have hrange : pyRange k = [] := by
    unfold pyRange
    rw [Int.toNat_of_nonpos hk]
    rfl
  have hstep : self.searchStep env q k = ([.primary (self.mkRequest q k)], .ok []) := by
    cases hchoice : self.bing_result_choice with
    | SNIPPET =>
      have := searchStep_snippet self env q k entries hchoice hresp
        (by rw [Int.toNat_of_nonpos hk]; exact Nat.zero_le _)
      rw [this, Int.toNat_of_nonpos hk]
      rfl
    | WEBPAGE =>
      have hbs4 : env.bs4Available = true := by
        rcases hmode with hmode | hmode
        · rw [hchoice] at hmode; exact absurd hmode (by decide)
        · exact hmode
      have := searchStep_webpage self env q k entries [] [] [] hchoice hresp
        (by rw [hrange]; rfl) rfl hbs4
      rw [this]
      rfl
  exact ⟨hstep, forward_cons_okNil self env k q rest hstep⟩

/-- Witness for C10: a snippet-mode call with `k = -1` against a two-entry
provider issues the primary request, contributes zero passages, and raises
nothing. -/
theorem claim_C10_nonpositive_k_witness :
    cfgSnip.searchStep envTwo "q" (-1) =
      ([.primary (cfgSnip.mkRequest "q" (-1))], .ok []) ∧
    cfgSnip.forward envTwo (.list ["q"]) (some (-1)) =
      (.primary (cfgSnip.mkRequest "q" (-1)) ::
        (cfgSnip.forward envTwo (.list []) (some (-1))).1,
       (cfgSnip.forward envTwo (.list []) (some (-1))).2) := by
  have h := claim_C10_nonpositive_k cfgSnip envTwo "q" [] (-1) [entryA, entryB]
    (by decide) rfl (Or.inl rfl)
  exact ⟨h.1, h.2 (by decide)⟩

/-- C4 is refuted at this input: constructing with an empty credential and an
empty endpoint does not fail fast — the constructor stores the empty
credential and returns normally (lines 21-37 perform no validation). -/
theorem claim_C4_counterexample :
    BingSearch.init "" "" .SNIPPET "en-us" 3 =
      ([], .ok ⟨"", "/v7.0/search", .SNIPPET, "en-us", 3⟩) := by
  rfl

/-- C2: for every non-empty sequence of non-empty queries, a snippet-mode
adapter whose provider answers each query with at least `k` entries returns
exactly `k` passages per query, concatenated in input query order with
per-query passages in API-returned order, each passage text equal to the
provider's snippet field, unmodified. -/
theorem claim_C2_snippet_exact_k (self : BingSearch) (env : Env)
    (queries : List String) (k : Int) (entriesOf : String → List ResultEntry)
    (hmode : self.bing_result_choice = .SNIPPET)
    (_hne : queries ≠ [])
    (hq : ∀ q ∈ queries, q ≠ "")
    (hresp : ∀ q ∈ queries,
      env.search (self.mkRequest q k) = .ok (.fields (some (entriesOf q))))
    (hlen : ∀ q ∈ queries, k.toNat ≤ (entriesOf q).length) :
    (self.forward env (.list queries) (some k)).2 =
      .ok ⟨queries.flatMap
        (fun q => ((entriesOf q).take k.toNat).map
          (fun e => (⟨e.snippet⟩ : dotdict)))⟩ ∧
    ∀ q ∈ queries,
      (((entriesOf q).take k.toNat).map (fun e => (⟨e.snippet⟩ : dotdict))).length
        = k.toNat := by
  constructor
  · rw [forward_list self env queries (some k)]
    simp only [Option.getD_some]
    rw [List.filter_eq_self.mpr (by simpa using hq)]
    rw [forwardLoop_snippet self env k entriesOf hmode queries hresp hlen]
    simp [Except.map]
  · intro q hqm
    rw [List.length_map, List.length_take]
    exact Nat.min_eq_left (hlen q hqm)

/-- Witness for C2: two queries against a two-entry provider with `k = 2`
produce exactly the four stubbed snippets in order. -/
theorem claim_C2_snippet_exact_k_witness :
    (cfgSnip.forward envTwo (.list ["alpha", "beta"]) (some 2)).2 =
      .ok ⟨[⟨"snippet A"⟩, ⟨"snippet B"⟩, ⟨"snippet A"⟩, ⟨"snippet B"⟩]⟩ := by
  have h := claim_C2_snippet_exact_k cfgSnip envTwo ["alpha", "beta"] 2
    (fun _ => [entryA, entryB]) rfl (by decide) (by decide)
    (fun q _ => rfl) (fun q _ => Nat.le_refl 2)
  exact h.1.trans rfl

/-- C5: a transport failure on a primary fetch makes `_search` abort with
it; a transport failure on a secondary page fetch makes the page-fetch loop
abort with it, and such a failure propagates out of `_search` unchanged in
webpage mode; and any `_search` exception aborts the whole `forward` call —
the transport calls are exactly those of the failing query, no later query
is processed, and no partial passage sequence is returned. -/
theorem claim_C5_transport_aborts (self : BingSearch) (env : Env)
    (q url : String) (k : Int) (rest urls : List String)
    (entries : List ResultEntry) (calls : List TransportCall) :
    (env.search (self.mkRequest q k) = .error () →
      self.searchStep env q k =
        ([.primary (self.mkRequest q k)], .error .transportFailure)) ∧
    (env.fetchPage url = .error () →
      fetchPages env (url :: urls) = ([.secondary url], .error .transportFailure)) ∧
    (∀ e : SearchError, self.bing_result_choice = .WEBPAGE →
      env.search (self.mkRequest q k) = .ok (.fields (some entries)) →
      extractAt entries (fun x => x.displayUrl) (pyRange k) = .ok urls →
      fetchPages env urls = (calls, .error e) →
      self.searchStep env q k = (.primary (self.mkRequest q k) :: calls, .error e)) ∧
    (∀ e : SearchError, q ≠ "" → (self.searchStep env q k).2 = .error e →
      self.forward env (.list (q :: rest)) (some k) =
        ((self.searchStep env q k).1, .error e)) := by
  refine ⟨searchStep_transport self env q k, ?_, ?_, ?_⟩
  · intro h
    simp [fetchPages, h]
  · intro e hmode hsearch hurls hfetch
    simp [BingSearch.searchStep, hmode, hsearch, hurls, hfetch]
  · intro e hq h2
    rw [forward_list self env (q :: rest) (some k)]
    simp only [Option.getD_some]
    rw [List.filter_cons_of_pos (by simpa using hq)]
    cases hs : self.searchStep env q k with
    | mk cs res =>
      rw [hs] at h2
      simp only at h2
      subst h2
      rw [forwardLoop_cons_error self env k q _ cs e hs]
      simp [Except.map]

/-- Witness for C5: with a dead transport, a two-query call makes exactly
one (failed) primary call and aborts; no partial result is returned. -/
theorem claim_C5_transport_aborts_witness :
    cfgSnip.searchStep envDown "a" 3 =
      ([.primary (cfgSnip.mkRequest "a" 3)], .error .transportFailure) ∧
    cfgSnip.forward envDown (.list ["a", "b"]) (some 3) =
      ([.primary (cfgSnip.mkRequest "a" 3)], .error .transportFailure) := by
  have h := claim_C5_transport_aborts cfgSnip envDown "a" "u" 3 ["b"] [] [] []
  have h1 := h.1 rfl
  have h3 := h.2.2.2 .transportFailure (by decide) (by rw [h1])
  rw [h1] at h3
  exact ⟨h1, h3⟩

/-- C6: a parsed response that lacks the `"webPages"` key makes the query
contribute exactly zero passages, raises nothing, and the call proceeds to
the remaining queries: the result of the whole call is that of the remaining
queries, with only the failing-free primary call prepended to the transport
log. -/
theorem claim_C6_missing_results_key (self : BingSearch) (env : Env)
    (q : String) (k : Int) (rest : List String) :
    (env.search (self.mkRequest q k) = .ok (.fields none) →
      self.searchStep env q k = ([.primary (self.mkRequest q k)], .ok [])) ∧
    (q ≠ "" → env.search (self.mkRequest q k) = .ok (.fields none) →
      self.forward env (.list (q :: rest)) (some k) =
        (.primary (self.mkRequest q k) ::
          (self.forward env (.list rest) (some k)).1,
         (self.forward env (.list rest) (some k)).2)) := by
  refine ⟨searchStep_noResults self env q k, fun hq h => ?_⟩
  exact forward_cons_okNil self env k q rest (searchStep_noResults self env q k h) hq

/-- Witness for C6: against a provider with no `"webPages"` key, the first
query contributes zero passages and the call continues with the second. -/
theorem claim_C6_missing_results_key_witness :
    cfgSnip.searchStep envNoResults "a" 3 =
      ([.primary (cfgSnip.mkRequest "a" 3)], .ok []) ∧
    cfgSnip.forward envNoResults (.list ["a", "b"]) (some 3) =
      (.primary (cfgSnip.mkRequest "a" 3) ::
        (cfgSnip.forward envNoResults (.list ["b"]) (some 3)).1,
       (cfgSnip.forward envNoResults (.list ["b"]) (some 3)).2) := by
  have h := claim_C6_missing_results_key cfgSnip envNoResults "a" 3 ["b"]
  exact ⟨h.1 rfl, h.2 (by decide) rfl⟩

/-- C7: empty (falsy) query strings are filtered out before any network
call: an empty-string input, and any sequence of only empty strings, yield
an empty `Prediction` with an empty transport-call log. -/
theorem claim_C7_empty_queries_no_calls (self : BingSearch) (env : Env)
    (k : Option Int) (qs : List String) :
    self.forward env (.str "") k = ([], .ok ⟨[]⟩) ∧
    ((∀ q ∈ qs, q = "") → self.forward env (.list qs) k = ([], .ok ⟨[]⟩)) := by
  constructor
  · rfl
  · intro h
    rw [forward_list self env qs k]
    rw [List.filter_eq_nil_iff.mpr (by simpa using h)]
    simp [forwardLoop, Except.map]

/-- Witness for C7: a sequence of two empty strings yields the empty
prediction and zero transport calls. -/
theorem claim_C7_empty_queries_no_calls_witness :
    cfgSnip.forward envTwo (.list ["", ""]) none = ([], .ok ⟨[]⟩) ∧
    cfgSnip.forward envTwo (.str "") none = ([], .ok ⟨[]⟩) := by
  have h := claim_C7_empty_queries_no_calls cfgSnip envTwo none ["", ""]
  exact ⟨h.2 (by decide), h.1⟩

/-- C4 (amended): construction never fails for any supplied constructor
inputs — an empty credential or endpoint is accepted and stored, not
rejected (only arguments missing at the call site fail, at the language
level, before the constructor body runs) — and no network call occurs at
construction time. -/
theorem claim_C4_construction_total (key endpoint : String)
    (choice : BingResultChoice) (market : String) (k : Int) :
    (BingSearch.init key endpoint choice market k).1 = [] ∧
    ∃ cfg : BingSearch, (BingSearch.init key endpoint choice market k).2 = .ok cfg ∧
      cfg.bing_search_v7_subscription_key = key :=
  ⟨rfl, BingSearch.initConfig key endpoint choice market k, rfl, rfl⟩
